import Mathlib

/-!
Verification development for the `puzzlewidgetserver` repository.

The Go sources are shallowly embedded: Go dynamic values (`any`) become the
inductive `GoValue`; Go maps become association lists with overwrite insertion;
Go `(T, error)` return pairs become `T × Option GoErr`; the gRPC `Process`
method becomes a pure function returning an `Outcome` (a distinguished `panic`
constructor models a Go runtime panic such as assignment into a nil map).
`encoding/json` unmarshalling is an external collaborator of the repository,
so `Process` is parameterised by an arbitrary decoder
`List Nat → Except String (Option DataMap)`, where `.ok none` models a decode
that leaves the target `Data` map nil (as `json.Unmarshal` does on JSON null)
and `.error msg` models a decode failure with detail `msg`.
-/

namespace PuzzleWidget

/-! ## Constants (src/server.go lines 33-37) -/

def formKey : String := "formData"

def dataKey : String := "puzzledata.json"

def filesKey : String := "Files"

def urlKey : String := "CurrentUrl"

def userKey : String := "Id"

/-! ## Errors (src/server.go lines 39-41, src/helper.go lines 25-29)

`errNumSyn s` and `errNumRange s` model the `*strconv.NumError` values that
`strconv.ParseUint(s, 10, 64)` returns for a malformed and an out-of-range
input respectively. -/

inductive GoErr where
  | errNotInt
  | errNotMap
  | errFilesType
  | errNotSlice
  | errNotString
  | errWidgetNotFound
  | errActionNotFound
  | errInternal
  | errEmptyUrl
  | errNumSyn (s : String)
  | errNumRange (s : String)
deriving DecidableEq

/-! ## Go dynamic values

A Go `any` value as it can occur in a `Data` tree handled by this repository:
nil interface, primitives of each width, `map[string]any`, `[]any`, `[]byte`
and `map[string][]byte`. Machine integers carry their mathematical value
(`Nat`/`Int`); Go floats are modelled by the rational they denote. -/

inductive GoValue where
  | vNil
  | vBool (b : Bool)
  | vString (s : String)
  | vUint (n : Nat)
  | vUint8 (n : Nat)
  | vUint16 (n : Nat)
  | vUint32 (n : Nat)
  | vUint64 (n : Nat)
  | vInt (i : Int)
  | vInt8 (i : Int)
  | vInt16 (i : Int)
  | vInt32 (i : Int)
  | vInt64 (i : Int)
  | vFloat32 (q : Rat)
  | vFloat64 (q : Rat)
  | vMap (m : List (String × GoValue))
  | vSlice (l : List GoValue)
  | vBytes (b : List Nat)
  | vFiles (f : List (String × List Nat))

/-- The Go type alias `Data = map[string]any`, as an association list. -/
abbrev DataMap := List (String × GoValue)

/-- A Go `map[string][]byte` (the request `Files` field), as an association list. -/
abbrev FilesMap := List (String × List Nat)

/-! ## Association-list operations modelling Go map primitives -/

/-- Go map read `m[key]` returning `(value, ok)` as an `Option`. -/
def strLookup {β : Type} : List (String × β) → String → Option β
  | [], _ => none
  | kv :: t, key => if kv.1 = key then some kv.2 else strLookup t key

/-- Go map write `m[key] = val` (overwrites an existing entry). -/
def strInsert {β : Type} : List (String × β) → String → β → List (String × β)
  | [], key, val => [(key, val)]
  | kv :: t, key, val => if kv.1 = key then (key, val) :: t else kv :: strInsert t key val

/-- Go `delete(m, key)`. -/
def strErase {β : Type} : List (String × β) → String → List (String × β)
  | [], _ => []
  | kv :: t, key => if kv.1 = key then strErase t key else kv :: strErase t key

/-- Go map read `m[key]` with the zero value `nil` for an absent key
(`any` zero value), used by the helpers reading a `Data` tree. -/
def dataLookup (data : DataMap) (key : String) : GoValue :=
  (strLookup data key).getD .vNil

/-! ## Dynamic value helpers (src/helper.go) -/

/-- `AsMap` (src/helper.go lines 31-40): Go returns `(Data, error)`; a nil
`Data` map is `none`. -/
def AsMap : GoValue → Option DataMap × Option GoErr
  | .vNil => (none, none)
  | .vMap m => (some m, none)
  | _ => (none, some .errNotMap)

/-- `AsSlice` (src/helper.go lines 42-51): a nil `[]any` is `none`. -/
def AsSlice : GoValue → Option (List GoValue) × Option GoErr
  | .vNil => (none, none)
  | .vSlice l => (some l, none)
  | _ => (none, some .errNotSlice)

/-- `AsString` (src/helper.go lines 53-62). -/
def AsString : GoValue → String × Option GoErr
  | .vNil => ("", none)
  | .vString s => (s, none)
  | _ => ("", some .errNotString)

/-- Base-10 value of a digit string, as `strconv` accumulates it. -/
def digitsVal (s : String) : Nat :=
  s.data.foldl (fun acc c => acc * 10 + (c.toNat - 48)) 0

/-- `strconv.ParseUint(s, 10, 64)`: a non-empty all-digit string below `2^64`
parses to its value; an empty or non-digit string is a syntax error; an
all-digit string at or above `2^64` is a range error. -/
def parseUint64 (s : String) : Except GoErr Nat :=
  if s.data ≠ [] ∧ s.data.all Char.isDigit then
    if digitsVal s < 18446744073709551616 then .ok (digitsVal s) else .error (.errNumRange s)
  else .error (.errNumSyn s)

/-- Truncation toward zero of a rational, the rounding Go uses when converting
an in-range float to an integer type. -/
def ratTrunc (q : Rat) : Int :=
  if 0 ≤ q then ⌊q⌋ else ⌈q⌉

/-- Go conversion `uint64(f)` for a float of value `q`. For `0 ≤ q < 2^64` Go
truncates toward zero; outside that range the Go result is
implementation-defined, which this total model renders as reduction mod `2^64`
(theorems about floats only assume the in-range case). -/
def goFloatToUint64 (q : Rat) : Nat :=
  ((ratTrunc q) % 18446744073709551616).toNat

/-- `AsUint64` (src/helper.go lines 64-101). Go's conversion `uint64(casted)`
is the identity on unsigned values (each already below `2^64`) and reduction
mod `2^64` on signed values. -/
def AsUint64 : GoValue → Nat × Option GoErr
  | .vNil => (0, none)
  | .vUint n => (n, none)
  | .vUint8 n => (n, none)
  | .vUint16 n => (n, none)
  | .vUint32 n => (n, none)
  | .vUint64 n => (n, none)
  | .vInt i => ((i % 18446744073709551616).toNat, none)
  | .vInt8 i => ((i % 18446744073709551616).toNat, none)
  | .vInt16 i => ((i % 18446744073709551616).toNat, none)
  | .vInt32 i => ((i % 18446744073709551616).toNat, none)
  | .vInt64 i => ((i % 18446744073709551616).toNat, none)
  | .vFloat32 q => (goFloatToUint64 q, none)
  | .vFloat64 q => (goFloatToUint64 q, none)
  | .vString s =>
    match parseUint64 s with
    | .ok n => (n, none)
    | .error e => (0, some e)
  | _ => (0, some .errNotInt)

/-- `GetFiles` (src/helper.go lines 103-113): reads `data[filesKey]`; a nil
value (also an absent key) is not an error; a value of any type other than
`map[string][]byte` fails with `errFilesType`. -/
def GetFiles (data : DataMap) : Option FilesMap × Option GoErr :=
  match dataLookup data filesKey with
  | .vNil => (none, none)
  | .vFiles f => (some f, none)
  | _ => (none, some .errFilesType)

/-- Backward scan over the reversed characters of a URL: drop characters until
the `n`-th `/` separator from the end, which is retained. An erase count
exceeding the number of separators is clamped at the string start (the spec
leaves that case open). -/
def dropSegs : Nat → List Char → List Char
  | 0, l => l
  | _ + 1, [] => []
  | n + 1, c :: rest =>
    if c = '/' then (if n = 0 then c :: rest else dropSegs n rest)
    else dropSegs (n + 1) rest

/-- Modelled from the spec: `GetBaseUrl` is part of this repository but absent
from src/. Per spec section 4.1 it reads `CurrentUrl` as a string, fails with
`errEmptyUrl` when the string is empty (also for a nil or absent value), and
otherwise scans backward from the end counting `/` separators, removing
exactly `levelsToErase` trailing path segments and returning the prefix up to
and including the retained separator. -/
def GetBaseUrl (levelsToErase : Nat) (data : DataMap) : String × Option GoErr :=
  match AsString (dataLookup data urlKey) with
  | (_, some e) => ("", some e)
  | (url, none) =>
    if url = "" then ("", some .errEmptyUrl)
    else (String.mk ((dropSegs levelsToErase url.data.reverse).reverse), none)

/-! ## Registry (src/server.go lines 43-73, 124-145)

`Action` is generic in the handler type `H` so registry theorems can be
instantiated with concrete, decidable handler stand-ins; the adapter uses
`H := HandlerFn`, the embedding of `ActionHandler`. -/

inductive MethodKind where
  | invalid
  | link
  | raw
deriving DecidableEq

structure Action (H : Type) where
  kind : MethodKind
  path : String
  queryNames : List String
  handler : H
deriving DecidableEq

/-- `Widget = map[string]action`. -/
abbrev Widget (H : Type) := List (String × Action H)

/-- The registry `map[string]Widget` owned by `WidgetServer`. -/
abbrev Registry (H : Type) := List (String × Widget H)

/-- `Widget.AddAction` (src/server.go lines 66-68): stores
`action{kind, path, handler}`, whose `queryNames` field keeps its zero value
(nil slice, modelled `[]`). -/
def Widget.AddAction {H : Type} (w : Widget H) (actionName : String)
    (kind : MethodKind) (path : String) (handler : H) : Widget H :=
  strInsert w actionName { kind := kind, path := path, queryNames := [], handler := handler }

/-- `Widget.AddActionWithQuery` (src/server.go lines 71-73). -/
def Widget.AddActionWithQuery {H : Type} (w : Widget H) (actionName : String)
    (kind : MethodKind) (path : String) (queryNames : List String) (handler : H) : Widget H :=
  strInsert w actionName
    { kind := kind, path := path, queryNames := queryNames, handler := handler }

/-- `WidgetServer.CreateWidget` (src/server.go lines 138-145): get-or-create.
Returns the widget handed to the caller together with the registry after the
call. -/
def CreateWidget {H : Type} (widgets : Registry H) (widgetName : String) :
    Widget H × Registry H :=
  match strLookup widgets widgetName with
  | some w => (w, widgets)
  | none => ([], strInsert widgets widgetName [])

/-! ## Dispatch adapter (src/server.go lines 75-122, 152-158) -/

/-- The embedding of `ActionHandler`: the handler receives the (possibly nil)
`Data` map and returns `(redirect, templateName, data, error)`; a handler
error is modelled by its message. The opaque `context.Context` argument is
passed through unchanged by the adapter and is elided. -/
abbrev HandlerFn := Option DataMap → String × String × List Nat × Option String

/-- A `*pb.Action` message built by `convertActions`. -/
structure PbAction where
  kind : MethodKind
  name : String
  path : String
  queryNames : List String
deriving DecidableEq

/-- `convertActions` (src/server.go lines 152-158); the Go map iteration
order is unspecified, here the association-list order. -/
def convertActions {H : Type} (widget : Widget H) : List PbAction :=
  widget.map fun kv => { kind := kv.2.kind, name := kv.1, path := kv.2.path, queryNames := kv.2.queryNames }

/-- A `*pb.WidgetResponse` message. -/
structure WidgetResponse where
  name : String
  actions : List PbAction
deriving DecidableEq

/-- `widgetServerAdapter.GetWidget` (src/server.go lines 81-88). -/
def GetWidget {H : Type} (widgets : Registry H) (name : String) :
    Except GoErr WidgetResponse :=
  match strLookup widgets name with
  | none => .error .errWidgetNotFound
  | some widget => .ok { name := name, actions := convertActions widget }

/-- A `*pb.ProcessRequest` message. -/
structure ProcessRequest where
  widgetName : String
  actionName : String
  files : FilesMap

/-- The observable outcome of one `Process` call: a runtime panic, an error
return with the messages logged on the way, or a `*pb.ProcessResponse` with
the messages logged on the way. -/
inductive Outcome where
  | panic
  | fail (e : GoErr) (log : List String)
  | ok (redirect : String) (templateName : String) (data : List Nat) (log : List String)

/-- The log entry of src/server.go line 105, carrying the decode detail. -/
def unmarshalLogMsg (detail : String) : String :=
  "Failed to unmarshal data.json from call: " ++ detail

/-- The log entry of src/server.go line 118, carrying the handler error detail. -/
def handleLogMsg (detail : String) : String :=
  "Failed to handle action: " ++ detail

/-- src/server.go lines 108-114: after the decode, `delete(files, dataKey)`,
then `if len(files) != 0 { data[filesKey] = files }`. Result: the `Data`
value passed to the handler, or `none` for the panic of assigning into a nil
map. -/
def processHandlerData (files : FilesMap) (dataOpt : Option DataMap) :
    Option (Option DataMap) :=
  let remaining := strErase files dataKey
  if remaining.length = 0 then some dataOpt
  else
    match dataOpt with
    | none => none
    | some m => some (some (strInsert m filesKey (.vFiles remaining)))

/-- src/server.go lines 116-121: invoke the handler; on error log the detail
and return `errInternal`, otherwise return the handler's triple. -/
def finishProcess (act : Action HandlerFn) (data : Option DataMap) : Outcome :=
  match act.handler data with
  | (_, _, _, some e) => .fail .errInternal [handleLogMsg e]
  | (redirect, templateName, resData, none) => .ok redirect templateName resData []

/-- `widgetServerAdapter.Process` (src/server.go lines 90-122), parameterised
by the `json.Unmarshal` collaborator `decode`. `files[dataKey]` yields the
nil byte slice (here `[]`) for an absent key. -/
def Process (widgets : Registry HandlerFn)
    (decode : List Nat → Except String (Option DataMap)) (req : ProcessRequest) : Outcome :=
  match strLookup widgets req.widgetName with
  | none => .fail .errWidgetNotFound []
  | some widget =>
    match strLookup widget req.actionName with
    | none => .fail .errActionNotFound []
    | some act =>
      match decode ((strLookup req.files dataKey).getD []) with
      | .error msg => .fail .errInternal [unmarshalLogMsg msg]
      | .ok dataOpt =>
        match processHandlerData req.files dataOpt with
        | none => .panic
        | some d => finishProcess act d

/-- Model of `encoding/json` unmarshalling into a `Data` map for the byte
strings used in concrete instances below: the bytes of `null` leave the
target map nil (no error), the bytes of an empty object yield an empty
non-nil map, anything else fails. -/
def jsonDecodeModel (b : List Nat) : Except String (Option DataMap) :=
  if b = [110, 117, 108, 108] then .ok none
  else if b = [123, 125] then .ok (some [])
  else .error "invalid character"

/-! ## Association-list lemmas -/

theorem strLookup_strInsert_self {β : Type} (l : List (String × β)) (k : String) (v : β) :
    strLookup (strInsert l k v) k = some v := by
  induction l with
  | nil => simp [strInsert, strLookup]
  | cons kv t ih =>
    by_cases h : kv.1 = k
    · simp [strInsert, strLookup, h]
    · simp [strInsert, strLookup, h, ih]

theorem strLookup_strErase_self {β : Type} (l : List (String × β)) (k : String) :
    strLookup (strErase l k) k = none := by
  induction l with
  | nil => simp [strErase, strLookup]
  | cons kv t ih =>
    by_cases h : kv.1 = k
    · simp [strErase, h, ih]
    · simp [strErase, strLookup, h, ih]

/-! ## Claim theorems -/

/-- C5: for every input value, each of `AsMap`, `AsSlice` and `AsString`
returns its type's zero value with no error on nil input, returns the input
unchanged with no error when the input already has the target shape, and
otherwise returns the zero value together with the type-mismatch error; no
other outcome is possible. -/
theorem asHelpers_trichotomy (v : GoValue) :
    (v = .vNil → AsMap v = (none, none) ∧ AsSlice v = (none, none) ∧ AsString v = ("", none)) ∧
    (∀ m, v = .vMap m → AsMap v = (some m, none)) ∧
    ((∀ m, v ≠ .vMap m) → v ≠ .vNil → AsMap v = (none, some .errNotMap)) ∧
    (∀ l, v = .vSlice l → AsSlice v = (some l, none)) ∧
    ((∀ l, v ≠ .vSlice l) → v ≠ .vNil → AsSlice v = (none, some .errNotSlice)) ∧
    (∀ s, v = .vString s → AsString v = (s, none)) ∧
    ((∀ s, v ≠ .vString s) → v ≠ .vNil → AsString v = ("", some .errNotString)) := by
  cases v <;> simp [AsMap, AsSlice, AsString]

theorem asHelpers_trichotomy_witness :
    AsMap .vNil = (none, none) ∧
    AsMap (.vMap [("k", .vBool true)]) = (some [("k", .vBool true)], none) ∧
    AsMap (.vBool true) = (none, some .errNotMap) ∧
    AsSlice (.vSlice [.vNil]) = (some [.vNil], none) ∧
    AsSlice (.vString "x") = (none, some .errNotSlice) ∧
    AsString (.vString "x") = ("x", none) ∧
    AsString (.vBool false) = ("", some .errNotString) :=
  ⟨((asHelpers_trichotomy .vNil).1 rfl).1,
   (asHelpers_trichotomy (.vMap [("k", .vBool true)])).2.1 _ rfl,
   (asHelpers_trichotomy (.vBool true)).2.2.1 (by intro m h; cases h) (by intro h; cases h),
   (asHelpers_trichotomy (.vSlice [.vNil])).2.2.2.1 _ rfl,
   (asHelpers_trichotomy (.vString "x")).2.2.2.2.1 (by intro l h; cases h) (by intro h; cases h),
   (asHelpers_trichotomy (.vString "x")).2.2.2.2.2.1 _ rfl,
   (asHelpers_trichotomy (.vBool false)).2.2.2.2.2.2 (by intro s h; cases h) (by intro h; cases h)⟩

/-- C6: `GetFiles` returns the `Files` entry as a filename-to-bytes mapping
with no error when it has that shape, returns nil with no error when the
entry is absent or nil, and fails with the dedicated `errFilesType` error
when the entry is present with any other shape. -/
theorem getFiles_spec (data : DataMap) :
    (strLookup data filesKey = none → GetFiles data = (none, none)) ∧
    (strLookup data filesKey = some .vNil → GetFiles data = (none, none)) ∧
    (∀ f, strLookup data filesKey = some (.vFiles f) → GetFiles data = (some f, none)) ∧
    (∀ v, strLookup data filesKey = some v → v ≠ .vNil → (∀ f, v ≠ .vFiles f) →
      GetFiles data = (none, some .errFilesType)) := by
  refine ⟨fun h => ?_, fun h => ?_, fun f h => ?_, fun v h hn hf => ?_⟩
  · simp [GetFiles, dataLookup, h]
  · simp [GetFiles, dataLookup, h]
  · simp [GetFiles, dataLookup, h]
  · have hd : dataLookup data filesKey = v := by simp [dataLookup, h]
    unfold GetFiles
    rw [hd]
    cases v <;> first
      | rfl
      | exact absurd rfl hn
      | exact absurd rfl (hf _)

theorem getFiles_spec_witness :
    GetFiles [] = (none, none) ∧
    GetFiles [(filesKey, .vNil)] = (none, none) ∧
    GetFiles [(filesKey, .vFiles [("a.txt", [1, 2])])] = (some [("a.txt", [1, 2])], none) ∧
    GetFiles [(filesKey, .vBool true)] = (none, some .errFilesType) :=
  ⟨(getFiles_spec []).1 rfl,
   (getFiles_spec [(filesKey, .vNil)]).2.1 rfl,
   (getFiles_spec [(filesKey, .vFiles [("a.txt", [1, 2])])]).2.2.1 _ rfl,
   (getFiles_spec [(filesKey, .vBool true)]).2.2.2 _ rfl
     (by intro h; cases h) (by intro f h; cases h)⟩

/-- C7: `GetBaseUrl 1` on a tree whose `CurrentUrl` is `/a/b/c` returns
`/a/b/`, `GetBaseUrl 2` there returns `/a/`, and for every tree whose
`CurrentUrl` entry is the empty string, nil, or absent, `GetBaseUrl` fails
with the `errEmptyUrl` error. -/
theorem getBaseUrl_spec :
    GetBaseUrl 1 [(urlKey, .vString "/a/b/c")] = ("/a/b/", none) ∧
    GetBaseUrl 2 [(urlKey, .vString "/a/b/c")] = ("/a/", none) ∧
    (∀ (n : Nat) (data : DataMap),
      strLookup data urlKey = none ∨ strLookup data urlKey = some .vNil ∨
        strLookup data urlKey = some (.vString "") →
      GetBaseUrl n data = ("", some .errEmptyUrl)) := by
  refine ⟨by decide, by decide, fun n data h => ?_⟩
  rcases h with h | h | h <;> simp [GetBaseUrl, dataLookup, h, AsString]

theorem getBaseUrl_spec_witness :
    GetBaseUrl 3 [] = ("", some .errEmptyUrl) ∧
    GetBaseUrl 1 [(urlKey, .vNil)] = ("", some .errEmptyUrl) ∧
    GetBaseUrl 1 [(urlKey, .vString "")] = ("", some .errEmptyUrl) :=
  ⟨getBaseUrl_spec.2.2 3 [] (Or.inl rfl),
   getBaseUrl_spec.2.2 1 [(urlKey, .vNil)] (Or.inr (Or.inl rfl)),
   getBaseUrl_spec.2.2 1 [(urlKey, .vString "")] (Or.inr (Or.inr rfl))⟩

/-- C8: `CreateWidget` returns the already-registered widget when one exists,
otherwise registers and returns a new empty widget; calling it twice with the
same name returns the same widget and the second call leaves the registry
unchanged. -/
theorem createWidget_get_or_create {H : Type} (widgets : Registry H) (name : String) :
    (∀ w, strLookup widgets name = some w → CreateWidget widgets name = (w, widgets)) ∧
    (strLookup widgets name = none →
      CreateWidget widgets name = ([], strInsert widgets name [])) ∧
    CreateWidget (CreateWidget widgets name).2 name =
      ((CreateWidget widgets name).1, (CreateWidget widgets name).2) := by
  refine ⟨fun w h => by simp [CreateWidget, h], fun h => by simp [CreateWidget, h], ?_⟩
  cases h : strLookup widgets name with
  | some w => simp [CreateWidget, h]
  | none => simp [CreateWidget, h, strLookup_strInsert_self]

theorem createWidget_get_or_create_witness :
    CreateWidget ([("w", [("a", Action.mk .raw "p" [] 7)])] : Registry Nat) "w"
      = ([("a", Action.mk .raw "p" [] 7)], [("w", [("a", Action.mk .raw "p" [] 7)])]) ∧
    CreateWidget ([] : Registry Nat) "w" = ([], [("w", [])]) :=
  ⟨(createWidget_get_or_create [("w", [("a", Action.mk .raw "p" [] 7)])] "w").1 _ rfl,
   (createWidget_get_or_create ([] : Registry Nat) "w").2.1 rfl⟩

/-- One registration step against a widget: either `AddAction` or
`AddActionWithQuery`, with its arguments. -/
inductive Registration (H : Type) where
  | basic (kind : MethodKind) (path : String) (handler : H)
  | withQuery (kind : MethodKind) (path : String) (queryNames : List String) (handler : H)

/-- Perform one registration under `name` on widget `w`. -/
def applyReg {H : Type} (w : Widget H) (name : String) : Registration H → Widget H
  | .basic k p hd => w.AddAction name k p hd
  | .withQuery k p q hd => w.AddActionWithQuery name k p q hd

/-- The action a registration stores. -/
def regToAction {H : Type} : Registration H → Action H
  | .basic k p hd => { kind := k, path := p, queryNames := [], handler := hd }
  | .withQuery k p q hd => { kind := k, path := p, queryNames := q, handler := hd }

theorem applyReg_eq_strInsert {H : Type} (w : Widget H) (name : String) (r : Registration H) :
    applyReg w name r = strInsert w name (regToAction r) := by
  cases r <;> rfl

/-- C9: `AddAction` and `AddActionWithQuery` register the action under the
given name, overwriting any existing action without error: after any
non-empty sequence of registrations under one name the stored action is
exactly the one from the last registration, `AddAction` storing an empty
`queryNames` and `AddActionWithQuery` the given one. -/
theorem addAction_last_wins {H : Type} (w : Widget H) (name : String)
    (regs : List (Registration H)) :
    (∀ last, regs.getLast? = some last →
      strLookup (regs.foldl (fun acc r => applyReg acc name r) w) name
        = some (regToAction last)) ∧
    (∀ k p hd, strLookup (w.AddAction name k p hd) name
      = some { kind := k, path := p, queryNames := [], handler := hd }) ∧
    (∀ k p q hd, strLookup (w.AddActionWithQuery name k p q hd) name
      = some { kind := k, path := p, queryNames := q, handler := hd }) := by
  refine ⟨?_, fun k p hd => strLookup_strInsert_self w name _,
    fun k p q hd => strLookup_strInsert_self w name _⟩
  induction regs generalizing w with
  | nil => intro last hl; cases hl
  | cons r rest ih =>
    intro last hl
    cases rest with
    | nil =>
      simp only [List.getLast?_singleton, Option.some.injEq] at hl
      subst hl
      simp [List.foldl, applyReg_eq_strInsert, strLookup_strInsert_self]
    | cons r2 rest2 =>
      have hl2 : (r2 :: rest2).getLast? = some last := by
        rw [← hl, List.getLast?_cons_cons]
      exact ih (applyReg w name r) last hl2

theorem addAction_last_wins_witness :
    strLookup
      ((([.basic .link "p" 0, .withQuery .raw "q" ["x"] 1] : List (Registration Nat)).foldl
        (fun acc r => applyReg acc "act" r) []))
      "act" = some { kind := .raw, path := "q", queryNames := ["x"], handler := 1 } :=
  (addAction_last_wins ([] : Widget Nat) "act"
    [.basic .link "p" 0, .withQuery .raw "q" ["x"] 1]).1 _ rfl

/-- C1: `Process` returns `errWidgetNotFound` for an unregistered widget,
`errActionNotFound` for a registered widget with an unregistered action, and
the generic `errInternal` (logging the decode detail exactly once) when the
primary-payload bytes fail to decode; no error other than these three is ever
returned from `Process`, and none other than `errWidgetNotFound` from
`GetWidget` (Describe). -/
theorem process_error_classification (widgets : Registry HandlerFn)
    (decode : List Nat → Except String (Option DataMap)) (req : ProcessRequest) :
    (strLookup widgets req.widgetName = none →
      Process widgets decode req = .fail .errWidgetNotFound []) ∧
    (∀ w, strLookup widgets req.widgetName = some w →
      strLookup w req.actionName = none →
      Process widgets decode req = .fail .errActionNotFound []) ∧
    (∀ w a msg, strLookup widgets req.widgetName = some w →
      strLookup w req.actionName = some a →
      decode ((strLookup req.files dataKey).getD []) = .error msg →
      Process widgets decode req = .fail .errInternal [unmarshalLogMsg msg]) ∧
    (∀ e log, Process widgets decode req = .fail e log →
      e = .errWidgetNotFound ∨ e = .errActionNotFound ∨ e = .errInternal) ∧
    (∀ name e, GetWidget widgets name = .error e → e = .errWidgetNotFound) := by
  refine ⟨fun hw => ?_, fun w hw ha => ?_, fun w a msg hw ha hd => ?_,
    fun e log hp => ?_, fun name e hg => ?_⟩
  · simp [Process, hw]
  · simp [Process, hw, ha]
  · simp [Process, hw, ha, hd]
  · unfold Process at hp
    cases hw : strLookup widgets req.widgetName with
    | none =>
      simp only [hw] at hp
      injection hp with h1 _
      exact .inl h1.symm
    | some widget =>
      simp only [hw] at hp
      cases ha : strLookup widget req.actionName with
      | none =>
        simp only [ha] at hp
        injection hp with h1 _
        exact .inr (.inl h1.symm)
      | some act =>
        simp only [ha] at hp
        cases hd : decode ((strLookup req.files dataKey).getD []) with
        | error msg =>
          simp only [hd] at hp
          injection hp with h1 _
          exact .inr (.inr h1.symm)
        | ok dataOpt =>
          simp only [hd] at hp
          cases hpd : processHandlerData req.files dataOpt with
          | none => simp only [hpd] at hp; cases hp
          | some d =>
            simp only [hpd] at hp
            unfold finishProcess at hp
            rcases hh : act.handler d with ⟨r, t, p, oe⟩
            cases oe with
            | none => simp only [hh] at hp; cases hp
            | some msg =>
              simp only [hh] at hp
              injection hp with h1 _
              exact .inr (.inr h1.symm)
  · unfold GetWidget at hg
    cases hw : strLookup widgets name with
    | none =>
      simp only [hw] at hg
      injection hg with h1
      exact h1.symm
    | some widget => simp only [hw] at hg; cases hg

/-- C2: for every `Process` call that passes widget/action resolution and
payload decoding, the reserved primary-payload entry is removed from the
files map before the handler runs (the handler never sees it), and the
remaining files are attached under `filesKey` if and only if at least one
remains. -/
theorem process_primary_payload (widgets : Registry HandlerFn)
    (decode : List Nat → Except String (Option DataMap)) (req : ProcessRequest)
    (w : Widget HandlerFn) (a : Action HandlerFn) (dataOpt : Option DataMap)
    (hw : strLookup widgets req.widgetName = some w)
    (ha : strLookup w req.actionName = some a)
    (hd : decode ((strLookup req.files dataKey).getD []) = .ok dataOpt) :
    strLookup (strErase req.files dataKey) dataKey = none ∧
    (strErase req.files dataKey = [] →
      Process widgets decode req = finishProcess a dataOpt) ∧
    (∀ m, dataOpt = some m → strErase req.files dataKey ≠ [] →
      Process widgets decode req =
        finishProcess a (some (strInsert m filesKey (.vFiles (strErase req.files dataKey))))) := by
  refine ⟨strLookup_strErase_self _ _, fun hrem => ?_, fun m hm hrem => ?_⟩
  · unfold Process
    simp only [hw, ha, hd]
    unfold processHandlerData
    simp [hrem]
  · unfold Process
    simp only [hw, ha, hd]
    unfold processHandlerData
    subst hm
    simp [List.length_eq_zero, hrem]

/-- C3: when the handler is reached and returns an error, `Process` logs the
detail and returns the bare `errInternal` (carrying no handler detail); when
the handler succeeds, `Process` returns exactly its redirect, template name
and payload bytes. -/
theorem process_handler_result (widgets : Registry HandlerFn)
    (decode : List Nat → Except String (Option DataMap)) (req : ProcessRequest)
    (w : Widget HandlerFn) (a : Action HandlerFn) (dataOpt : Option DataMap)
    (d : Option DataMap)
    (hw : strLookup widgets req.widgetName = some w)
    (ha : strLookup w req.actionName = some a)
    (hd : decode ((strLookup req.files dataKey).getD []) = .ok dataOpt)
    (hpd : processHandlerData req.files dataOpt = some d) :
    (∀ r t p e, a.handler d = (r, t, p, some e) →
      Process widgets decode req = .fail .errInternal [handleLogMsg e]) ∧
    (∀ r t p, a.handler d = (r, t, p, none) →
      Process widgets decode req = .ok r t p []) := by
  constructor
  · intro r t p e hh
    unfold Process
    simp only [hw, ha, hd, hpd]
    unfold finishProcess
    rw [hh]
  · intro r t p hh
    unfold Process
    simp only [hw, ha, hd, hpd]
    unfold finishProcess
    rw [hh]

/-- C10: when the primary payload decodes to JSON null (nil `Data` map, no
decode error) while at least one other file entry remains, the adapter
assigns into a nil map, and `Process` panics instead of returning. -/
theorem process_nil_data_panic (widgets : Registry HandlerFn)
    (decode : List Nat → Except String (Option DataMap)) (req : ProcessRequest)
    (w : Widget HandlerFn) (a : Action HandlerFn)
    (hw : strLookup widgets req.widgetName = some w)
    (ha : strLookup w req.actionName = some a)
    (hd : decode ((strLookup req.files dataKey).getD []) = .ok none)
    (hrem : strErase req.files dataKey ≠ []) :
    Process widgets decode req = .panic := by
  unfold Process
  simp only [hw, ha, hd]
  unfold processHandlerData
  simp [List.length_eq_zero, hrem]

/-! ## Concrete instances used by the witnesses -/

/-- A sample handler succeeding with fixed values. -/
def sampleHandler : HandlerFn := fun _ => ("r", "t", [7], none)

/-- A sample handler failing with message `boom`. -/
def failingHandler : HandlerFn := fun _ => ("", "", [], some "boom")

/-- A registry with one widget `w` holding a succeeding action `a` and a
failing action `b`. -/
def sampleRegistry : Registry HandlerFn :=
  [("w", [("a", { kind := .link, path := "/p", queryNames := [], handler := sampleHandler }),
          ("b", { kind := .raw, path := "/q", queryNames := [], handler := failingHandler })])]

theorem process_error_classification_witness :
    Process sampleRegistry jsonDecodeModel
      { widgetName := "nope", actionName := "a", files := [] }
      = .fail .errWidgetNotFound [] ∧
    Process sampleRegistry jsonDecodeModel
      { widgetName := "w", actionName := "nope", files := [] }
      = .fail .errActionNotFound [] ∧
    Process sampleRegistry jsonDecodeModel
      { widgetName := "w", actionName := "a", files := [] }
      = .fail .errInternal [unmarshalLogMsg "invalid character"] :=
  ⟨(process_error_classification sampleRegistry jsonDecodeModel
      { widgetName := "nope", actionName := "a", files := [] }).1 rfl,
   (process_error_classification sampleRegistry jsonDecodeModel
      { widgetName := "w", actionName := "nope", files := [] }).2.1 _ rfl rfl,
   (process_error_classification sampleRegistry jsonDecodeModel
      { widgetName := "w", actionName := "a", files := [] }).2.2.1 _ _ _ rfl rfl rfl⟩

theorem process_primary_payload_witness :
    strLookup (strErase ([(dataKey, [123, 125]), ("f.txt", [1])] : FilesMap)
      dataKey) dataKey = none ∧
    Process sampleRegistry jsonDecodeModel
      { widgetName := "w", actionName := "a", files := [(dataKey, [123, 125])] }
      = finishProcess { kind := .link, path := "/p", queryNames := [], handler := sampleHandler }
          (some []) ∧
    Process sampleRegistry jsonDecodeModel
      { widgetName := "w", actionName := "a", files := [(dataKey, [123, 125]), ("f.txt", [1])] }
      = finishProcess { kind := .link, path := "/p", queryNames := [], handler := sampleHandler }
          (some [(filesKey, .vFiles [("f.txt", [1])])]) := by
  refine ⟨?_, ?_, ?_⟩
  · exact (process_primary_payload sampleRegistry jsonDecodeModel
      { widgetName := "w", actionName := "a", files := [(dataKey, [123, 125]), ("f.txt", [1])] }
      _ _ (some []) rfl rfl rfl).1
  · exact (process_primary_payload sampleRegistry jsonDecodeModel
      { widgetName := "w", actionName := "a", files := [(dataKey, [123, 125])] }
      _ _ (some []) rfl rfl rfl).2.1 (by decide)
  · exact (process_primary_payload sampleRegistry jsonDecodeModel
      { widgetName := "w", actionName := "a", files := [(dataKey, [123, 125]), ("f.txt", [1])] }
      _ _ (some []) rfl rfl rfl).2.2 [] rfl (by decide)

theorem process_handler_result_witness :
    Process sampleRegistry jsonDecodeModel
      { widgetName := "w", actionName := "a", files := [(dataKey, [123, 125])] }
      = .ok "r" "t" [7] [] ∧
    Process sampleRegistry jsonDecodeModel
      { widgetName := "w", actionName := "b", files := [(dataKey, [123, 125])] }
      = .fail .errInternal [handleLogMsg "boom"] :=
  ⟨(process_handler_result sampleRegistry jsonDecodeModel
      { widgetName := "w", actionName := "a", files := [(dataKey, [123, 125])] }
      _ _ (some []) (some []) rfl rfl rfl rfl).2 "r" "t" [7] rfl,
   (process_handler_result sampleRegistry jsonDecodeModel
      { widgetName := "w", actionName := "b", files := [(dataKey, [123, 125])] }
      _ _ (some []) (some []) rfl rfl rfl rfl).1 "" "" [] "boom" rfl⟩

theorem process_nil_data_panic_witness :
    Process sampleRegistry jsonDecodeModel
      { widgetName := "w", actionName := "a",
        files := [(dataKey, [110, 117, 108, 108]), ("f.txt", [1])] }
      = .panic :=
  process_nil_data_panic sampleRegistry jsonDecodeModel
    { widgetName := "w", actionName := "a",
      files := [(dataKey, [110, 117, 108, 108]), ("f.txt", [1])] }
    _ _ rfl rfl rfl (by decide)

/-! ## C4: AsUint64 -/

theorem foldl_digits_eq_ofDigits (l : List Char) (acc : Nat) :
    l.foldl (fun a c => a * 10 + (c.toNat - 48)) acc
      = acc * 10 ^ l.length + Nat.ofDigits 10 (l.reverse.map fun c => c.toNat - 48) := by
  induction l generalizing acc with
  | nil => simp [Nat.ofDigits]
  | cons c t ih =>
    simp only [List.foldl_cons, ih, List.reverse_cons, List.map_append, List.map_cons,
      List.map_nil, Nat.ofDigits_append, List.length_map, List.length_reverse,
      List.length_cons, Nat.ofDigits_cons, Nat.ofDigits_nil, pow_succ]
    push_cast
    ring

theorem digitsVal_eq_ofDigits (s : String) :
    digitsVal s = Nat.ofDigits 10 (s.data.reverse.map fun c => c.toNat - 48) := by
  have h := foldl_digits_eq_ofDigits s.data 0
  simpa [digitsVal] using h

/-- C4 counterexample: the signed integer `-1` is a supported numeric
representation, yet `AsUint64` returns `2^64 - 1` with no error — a value
that is not mathematically equivalent to the input. -/
theorem asUint64_negative_not_equiv :
    (AsUint64 (.vInt (-1))).2 = none ∧
    ((AsUint64 (.vInt (-1))).1 : Int) ≠ (-1 : Int) := by
  refine ⟨rfl, ?_⟩
  intro h
  rw [show (AsUint64 (.vInt (-1))).1 = 18446744073709551615 from rfl] at h
  norm_num at h

theorem goFloatToUint64_eq_ratTrunc (q : Rat) (h0 : 0 ≤ q)
    (h1 : q < 18446744073709551616) :
    ((goFloatToUint64 q : Nat) : Int) = ratTrunc q := by
  have ht : ratTrunc q = ⌊q⌋ := by unfold ratTrunc; rw [if_pos h0]
  have hf0 : (0 : Int) ≤ ⌊q⌋ := Int.floor_nonneg.mpr h0
  have hf1 : ⌊q⌋ < 18446744073709551616 := by
    rw [Int.floor_lt]
    exact_mod_cast h1
  unfold goFloatToUint64
  rw [ht, Int.emod_eq_of_lt hf0 hf1, Int.toNat_of_nonneg hf0]

/-- C4 amended: `AsUint64` maps nil to `(0, no error)`; unsigned integers to
their value; signed integers to the value reduced mod `2^64` — the
mathematically equivalent value exactly when the input is non-negative and
below `2^64`; in-range floats to their truncation toward zero; a non-empty
base-10 digit string below `2^64` to the number its digits denote, any string
the parser rejects to `0` with the parser's own error; and every other non-nil
shape to the type-mismatch error `errNotInt`. -/
theorem asUint64_semantics :
    AsUint64 .vNil = (0, none) ∧
    (∀ n : Nat, AsUint64 (.vUint n) = (n, none) ∧ AsUint64 (.vUint8 n) = (n, none) ∧
      AsUint64 (.vUint16 n) = (n, none) ∧ AsUint64 (.vUint32 n) = (n, none) ∧
      AsUint64 (.vUint64 n) = (n, none)) ∧
    (∀ i : Int, AsUint64 (.vInt i) = ((i % 18446744073709551616).toNat, none) ∧
      AsUint64 (.vInt8 i) = ((i % 18446744073709551616).toNat, none) ∧
      AsUint64 (.vInt16 i) = ((i % 18446744073709551616).toNat, none) ∧
      AsUint64 (.vInt32 i) = ((i % 18446744073709551616).toNat, none) ∧
      AsUint64 (.vInt64 i) = ((i % 18446744073709551616).toNat, none)) ∧
    (∀ i : Int, 0 ≤ i → i < 18446744073709551616 →
      ((AsUint64 (.vInt64 i)).1 : Int) = i ∧ (AsUint64 (.vInt64 i)).2 = none) ∧
    (∀ q : Rat, 0 ≤ q → q < 18446744073709551616 →
      ((AsUint64 (.vFloat64 q)).1 : Int) = ratTrunc q ∧ (AsUint64 (.vFloat64 q)).2 = none) ∧
    (∀ q : Rat, 0 ≤ q → q < 18446744073709551616 →
      ((AsUint64 (.vFloat32 q)).1 : Int) = ratTrunc q ∧ (AsUint64 (.vFloat32 q)).2 = none) ∧
    (∀ s : String, s.data ≠ [] → s.data.all Char.isDigit →
      digitsVal s < 18446744073709551616 →
      AsUint64 (.vString s)
        = (Nat.ofDigits 10 (s.data.reverse.map fun c => c.toNat - 48), none)) ∧
    (∀ s e, parseUint64 s = .error e → AsUint64 (.vString s) = (0, some e)) ∧
    (∀ b, AsUint64 (.vBool b) = (0, some .errNotInt)) ∧
    (∀ m, AsUint64 (.vMap m) = (0, some .errNotInt)) ∧
    (∀ l, AsUint64 (.vSlice l) = (0, some .errNotInt)) ∧
    (∀ b, AsUint64 (.vBytes b) = (0, some .errNotInt)) ∧
    (∀ f, AsUint64 (.vFiles f) = (0, some .errNotInt)) := by
  refine ⟨rfl, fun n => ⟨rfl, rfl, rfl, rfl, rfl⟩, fun i => ⟨rfl, rfl, rfl, rfl, rfl⟩,
    fun i h0 h1 => ?_, fun q h0 h1 => ⟨goFloatToUint64_eq_ratTrunc q h0 h1, rfl⟩,
    fun q h0 h1 => ⟨goFloatToUint64_eq_ratTrunc q h0 h1, rfl⟩,
    fun s h1 h2 h3 => ?_, fun s e he => ?_,
    fun b => rfl, fun m => rfl, fun l => rfl, fun b => rfl, fun f => rfl⟩
  · have h2 : i % 18446744073709551616 = i := Int.emod_eq_of_lt h0 h1
    exact ⟨by show ((i % 18446744073709551616).toNat : Int) = i
              rw [h2, Int.toNat_of_nonneg h0], rfl⟩
  · have hp : parseUint64 s = .ok (digitsVal s) := by
      simp [parseUint64, h1, h2, h3]
    have hb := digitsVal_eq_ofDigits s
    simp only [AsUint64, hp]
    rw [hb]
  · simp [AsUint64, he]

theorem asUint64_semantics_witness :
    ((AsUint64 (.vInt64 5)).1 : Int) = (5 : Int) ∧
    ((AsUint64 (.vFloat64 3)).1 : Int) = ratTrunc 3 ∧
    ((AsUint64 (.vFloat32 3)).1 : Int) = ratTrunc 3 ∧
    AsUint64 (.vString "42")
      = (Nat.ofDigits 10 (("42".data).reverse.map fun c => c.toNat - 48), none) ∧
    AsUint64 (.vString "") = (0, some (.errNumSyn "")) := by
  obtain ⟨_, _, _, h4, h5, h6, h7, h8, _⟩ := asUint64_semantics
  exact ⟨(h4 5 (by norm_num) (by norm_num)).1,
    (h5 3 (by norm_num) (by norm_num)).1,
    (h6 3 (by norm_num) (by norm_num)).1,
    h7 "42" (by decide) (by decide) (by decide),
    h8 "" (.errNumSyn "") rfl⟩

end PuzzleWidget
